import Mathlib

/-!
Verification of the `test_mainplan` batch summarizer.

Shallow embedding of the two source files:
  * `src/utils.py`       — `render_prompt`, `retry_backoff`
  * `src/run_summary.py` — `process_csv` (row loop, error log, atomic write)

Modelling conventions:
  * A zero-argument fallible operation is embedded as its invocation
    sequence `op : ℕ → Except E A`: `op j` is the outcome of the j-th
    invocation (0-indexed).  `time.sleep` is embedded as an accumulated
    rational duration (`float` arithmetic in the source is exact on the
    quantities involved; we use `ℚ`).
  * Python's `raise last_exc` with `last_exc = None` (the fall-through of an
    empty retry loop) is embedded as `Except.error none`: a failure that is
    not any operation error.  A propagated operation error is
    `Except.error (some e)`.
  * A CSV row (a `csv.DictReader` dict) is an association list from field
    name to value, in insertion order; dict update keeps the position of an
    existing key and appends a fresh one.
  * Writing the file is embedded by the `Persist` action: the constructor
    `Persist.atomicReplace` stands for the source's `tempfile.mkstemp` in
    `os.path.dirname(csv_path)` followed by `csv.DictWriter` over the loaded
    header and `os.replace(tmp_path, csv_path)` — a same-directory temp file
    atomically renamed over the target, never a copy.
  * `print` output is collected in order into a list of strings; the
    `errors.log` appends are collected into a list of `(id, error)` records.
  * The pacing delay `time.sleep(0.3)` after a successful call has no
    observable effect beyond time and is not modelled.
-/

/-- `Except.isOk` as a plain boolean discriminator. -/
def exceptOk {E A : Type} : Except E A → Bool
  | Except.ok _ => true
  | Except.error _ => false

instance {E A : Type} [DecidableEq E] [DecidableEq A] : DecidableEq (Except E A) := fun a b =>
  match a, b with
  | Except.ok x, Except.ok y =>
      if h : x = y then isTrue (by rw [h]) else isFalse (by simp [h])
  | Except.ok _, Except.error _ => isFalse (by simp)
  | Except.error _, Except.ok _ => isFalse (by simp)
  | Except.error x, Except.error y =>
      if h : x = y then isTrue (by rw [h]) else isFalse (by simp [h])

/-- Result of one call to `retry_backoff` (src/utils.py:16-28):
the returned value or propagated exception, the cumulative `time.sleep`
duration, and the number of times `func` was invoked. -/
structure RetryResult (E A : Type) where
  result : Except (Option E) A
  slept  : ℚ
  calls  : ℕ
deriving Repr, DecidableEq

/-- The loop `for i in range(max_retries)` of `retry_backoff`
(src/utils.py:21-27): `i` is the current attempt index, `remaining` the
iterations left, `last` the current `last_exc`.  On success the value is
returned at once; on exception the wait `base * (2 ** i)` is slept and the
loop continues; when iterations are exhausted, `raise last_exc`
(src/utils.py:28). -/
def retryAux {E A : Type} (op : ℕ → Except E A) (base : ℚ) :
    ℕ → ℕ → Option E → ℚ → ℕ → RetryResult E A
  | _, 0, last, slept, calls => ⟨Except.error last, slept, calls⟩
  | i, n + 1, _last, slept, calls =>
      match op i with
      | Except.ok a => ⟨Except.ok a, slept, calls + 1⟩
      | Except.error e =>
          retryAux op base (i + 1) n (some e) (slept + base * 2 ^ i) (calls + 1)

/-- `retry_backoff(func, max_retries, base)` (src/utils.py:16-28).
`max_retries` is a Python `int`, hence `ℤ`; `range` of a non-positive
bound is empty. -/
def retry_backoff {E A : Type} (op : ℕ → Except E A) (max_retries : ℤ) (base : ℚ) :
    RetryResult E A :=
  retryAux op base 0 max_retries.toNat none 0 0

/-- A CSV row as produced by `csv.DictReader`: an association list from
field name to value in field order.  (A `DictReader` row holds every
header field; rows with fewer keys model dicts in general.) -/
abbrev Row := List (String × String)

/-- Python `row.get(k)`: the value stored under `k`, if the key is present. -/
def rowGet (r : Row) (k : String) : Option String :=
  (r.find? (fun p => p.1 == k)).map Prod.snd

/-- Python `row.get(k, d)`. -/
def rowGetD (r : Row) (k d : String) : String := (rowGet r k).getD d

/-- Python `row[k] = v` on a dict: replaces the value of an existing key in
place (keeping its position), appends a new key at the end. -/
def rowSet (r : Row) (k v : String) : Row :=
  if (r.find? (fun p => p.1 == k)).isSome then
    r.map (fun p => if p.1 == k then (k, v) else p)
  else r ++ [(k, v)]

/-- The whitespace characters Python `str.strip()` removes (ASCII range;
the exotic Unicode spaces Python also strips are not modelled). -/
def pySpace (c : Char) : Bool :=
  c == ' ' || c == '\t' || c == '\n' || c == '\r' || c == '\x0b' || c == '\x0c'

/-- Python `s.strip()`: drop leading and trailing whitespace. -/
def pyStrip (s : String) : String :=
  String.mk (((s.data.dropWhile pySpace).reverse.dropWhile pySpace).reverse)

/-- Python truthiness of a string: non-empty. -/
def pyTruthy (s : String) : Bool := !(s == "")

/-- Replacement of the leftmost non-overlapping occurrences of `pat` by
`rep`, over character lists (the semantics of Python `str.replace` for a
non-empty pattern).  `fuel` bounds the recursion; each step consumes at
least one input character, so the input length suffices. -/
def replaceChars (pat rep : List Char) : ℕ → List Char → List Char
  | 0, l => l
  | _ + 1, [] => []
  | fuel + 1, c :: rest =>
      if 0 < pat.length && (c :: rest).take pat.length == pat then
        rep ++ replaceChars pat rep fuel ((c :: rest).drop pat.length)
      else c :: replaceChars pat rep fuel rest

/-- Python `s.replace(pat, rep)` for the non-empty patterns used here. -/
def pyReplace (s pat rep : String) : String :=
  String.mk (replaceChars pat.data rep.data s.data.length s.data)

/-- `render_prompt(template, article)` with `extras=None`
(src/utils.py:9-14): replaces every occurrence of the literal placeholder
in the template by the article text. -/
def render_prompt (template article : String) : String :=
  pyReplace template "\x7b\x7bARTICLE\x7d\x7d" article

/-- The skip test of the row loop (src/run_summary.py:160):
`row.get("summary") and row.get("summary").strip()` — truthy iff the
`summary` key is present with a non-empty value that is non-blank after
stripping surrounding whitespace. -/
def summaryFilled (r : Row) : Bool :=
  match rowGet r "summary" with
  | none => false
  | some s => pyTruthy s && pyTruthy (pyStrip s)

/-- `f"...{row.get('id')}..."`: Python renders a missing key (None) as
the text `None`. -/
def idString (r : Row) : String :=
  match rowGet r "id" with
  | some s => s
  | none => "None"

/-- `str(e)` for the exception propagated out of `retry_backoff`; the
`none` case (`raise None`, a TypeError) cannot occur for the
`max_retries=4` call in `process_csv`. -/
def errMsg : Option String → String
  | some s => s
  | none => "TypeError: exceptions must derive from BaseException"

/-- Mutable state of the row loop of `process_csv`
(src/run_summary.py:146-188): processed rows, the `updated` flag, the
number of external-call invocations, the records appended to
`errors.log`, and the lines printed. -/
structure LoopState where
  rows    : List Row
  updated : Bool
  calls   : ℕ
  errlog  : List (Option String × String)
  prints  : List String
deriving Repr, DecidableEq

/-- Sequential composition of loop effects: lists and logs are appended,
`updated` is or-ed, call counts add. -/
def mergeState (s t : LoopState) : LoopState :=
  ⟨s.rows ++ t.rows, s.updated || t.updated, s.calls + t.calls,
   s.errlog ++ t.errlog, s.prints ++ t.prints⟩

/-- Effect of one iteration of the row loop of `process_csv`
(src/run_summary.py:159-188) on row `row` at index `i`, with the external
call `call_openai_chat` abstracted as the oracle `o`: `o i j` is the
outcome of the j-th invocation of `_call` for row `i` (the retry wrapper
is invoked as `retry_backoff(_call, max_retries=4, base=1, ...)`,
src/run_summary.py:178). -/
def rowDelta (tpl : String) (dry : Bool) (o : ℕ → ℕ → Except String String)
    (i : ℕ) (row : Row) : LoopState :=
  if summaryFilled row then ⟨[row], false, 0, [], []⟩
  else
    let idS := idString row
    let prompt := render_prompt tpl (rowGetD row "article" "")
    let progress := s!"Processing id={idS} (index={i})"
    if dry then
      ⟨[rowSet row "summary" "[dry-run] summary would be written here"], true, 0, [],
       [progress, "--- prompt preview ---", prompt.take 1000, "--- end preview ---"]⟩
    else
      let r := retry_backoff (o i) 4 1
      match r.result with
      | Except.ok s => ⟨[rowSet row "summary" s], true, r.calls, [], [progress]⟩
      | Except.error e =>
          let em := errMsg e
          ⟨[row], false, r.calls, [(rowGet row "id", em)],
           [progress, s!"Error calling OpenAI for id={idS}: {em}"]⟩

/-- One iteration of the row loop applied to the accumulated state. -/
def stepRow (tpl : String) (dry : Bool) (o : ℕ → ℕ → Except String String)
    (i : ℕ) (row : Row) (s : LoopState) : LoopState :=
  mergeState s (rowDelta tpl dry o i row)

/-- The row loop `for i, row in enumerate(rows)` (src/run_summary.py:159). -/
def processRows (tpl : String) (dry : Bool) (o : ℕ → ℕ → Except String String) :
    ℕ → List Row → LoopState → LoopState
  | _, [], s => s
  | i, row :: rest, s => processRows tpl dry o (i + 1) rest (stepRow tpl dry o i row s)

/-- The combined effect of the loop over a row list starting at index `i`,
from an empty state. -/
def loopDelta (tpl : String) (dry : Bool) (o : ℕ → ℕ → Except String String) :
    ℕ → List Row → LoopState
  | _, [] => ⟨[], false, 0, [], []⟩
  | i, row :: rest => mergeState (rowDelta tpl dry o i row) (loopDelta tpl dry o (i + 1) rest)

/-- The value row `i` holds after the loop: unchanged when skipped or when
the call fails; `summary` overwritten by the placeholder in dry-run and by
the returned text on success. -/
def newRow (dry : Bool) (o : ℕ → ℕ → Except String String)
    (i : ℕ) (row : Row) : Row :=
  if summaryFilled row then row
  else if dry then rowSet row "summary" "[dry-run] summary would be written here"
  else
    match (retry_backoff (o i) 4 1).result with
    | Except.ok s => rowSet row "summary" s
    | Except.error _ => row

/-- Pointwise image of the row list under `newRow`, indices from `i`. -/
def newRows (dry : Bool) (o : ℕ → ℕ → Except String String) :
    ℕ → List Row → List Row
  | _, [] => []
  | i, row :: rest => newRow dry o i row :: newRows dry o (i + 1) rest

/-- Row `row` at loop index `i` gets a summary assigned (the source lines
170-171 or 185-186 run): it needs work, and either the run is a dry run or
the retried call succeeds. -/
def rowAssigned (dry : Bool) (o : ℕ → ℕ → Except String String)
    (i : ℕ) (row : Row) : Prop :=
  summaryFilled row = false ∧
    (dry = true ∨ ∃ s, (retry_backoff (o i) 4 1).result = Except.ok s)

/-- How `process_csv` leaves the dataset file (src/run_summary.py:190-202):
either untouched, or — `atomicReplace` — rewritten by creating a temp file
via `tempfile.mkstemp` in the directory of the target, writing the header
and all rows with `csv.DictWriter`, and renaming it over the target with
`os.replace` (an atomic rename, not a copy). -/
inductive Persist where
  | noWrite : Persist
  | atomicReplace (headers : List String) (rows : List Row) : Persist
deriving Repr, DecidableEq

/-- Observable outcome of `process_csv` (src/run_summary.py:144-202).
`exitCode = some 1` models `sys.exit(1)`. -/
structure ProcResult where
  rows     : List Row
  updated  : Bool
  calls    : ℕ
  errlog   : List (Option String × String)
  prints   : List String
  persist  : Persist
  exitCode : Option ℕ
deriving Repr, DecidableEq

/-- `process_csv(csv_path, prompt_path, model, batch_size, dry_run)`
(src/run_summary.py:144-202).  The dataset file's contents are passed as
the parsed header (`none` when the file has no header row) and row list;
`batch_size` and `model` have no observable effect and are omitted.  The
header check (src/run_summary.py:152-154) requires only `article` and
`summary`. -/
def process_csv (headers? : Option (List String)) (rows : List Row)
    (tpl : String) (dry : Bool) (o : ℕ → ℕ → Except String String) : ProcResult :=
  match headers? with
  | none =>
      ⟨rows, false, 0, [],
       ["CSV must include headers and contain article and summary columns."],
       Persist.noWrite, some 1⟩
  | some headers =>
      if headers.contains "article" && headers.contains "summary" then
        let s := processRows tpl dry o 0 rows ⟨[], false, 0, [], []⟩
        if s.updated then
          ⟨s.rows, true, s.calls, s.errlog, s.prints ++ ["Wrote updates."],
           Persist.atomicReplace headers s.rows, none⟩
        else
          ⟨s.rows, false, s.calls, s.errlog, s.prints ++ ["No updates needed."],
           Persist.noWrite, none⟩
      else
        ⟨rows, false, 0, [],
         ["CSV must include headers and contain article and summary columns."],
         Persist.noWrite, some 1⟩

/-- One line of the file written by `csv.DictWriter` with
`fieldnames=headers` (src/run_summary.py:195-198): the row's values in
header order (`restval` default for a missing key). -/
def writeRowCsv (headers : List String) (r : Row) : List String :=
  headers.map (fun h => rowGetD r h "")

/-- The file contents a `Persist` action leaves at the target path:
`none` when the target is untouched. -/
def writtenFile : Persist → Option (List String × List (List String))
  | Persist.noWrite => none
  | Persist.atomicReplace headers rows => some (headers, rows.map (writeRowCsv headers))

/-! Concrete data used by witnesses and counterexamples. -/

/-- An operation that fails twice, then succeeds. -/
def opC1 : ℕ → Except String String :=
  fun j => if j < 2 then Except.error "boom" else Except.ok "done"

/-- An operation that always fails. -/
def opC9 : ℕ → Except String String := fun _ => Except.error "never"

/-- The error produced by the j-th attempt of `opC10`. -/
def fC10 : ℕ → String := fun j => if j = 0 then "e0" else "e1"

/-- An operation failing with attempt-indexed errors. -/
def opC10 : ℕ → Except String String := fun j => Except.error (fC10 j)

/-- Header of the sample datasets. -/
def wHeaders : List String := ["id", "article", "summary"]

/-- A row whose `summary` is empty (needs work). -/
def wRow : Row := [("id", "7"), ("article", "a"), ("summary", "")]

/-- An already-summarized row (non-blank `summary`). -/
def fRow : Row := [("id", "1"), ("article", "b"), ("summary", "done")]

/-- An external call that always fails with `boom`. -/
def wOracle : ℕ → ℕ → Except String String := fun _ _ => Except.error "boom"

/-- An external call that always succeeds with the empty string (the
adapter returns `content.strip()`, which may be empty). -/
def cOracle : ℕ → ℕ → Except String String := fun _ _ => Except.ok ""

/-- An external call that always succeeds with a non-blank summary. -/
def gOracle : ℕ → ℕ → Except String String := fun _ _ => Except.ok "S"

/-- A header lacking the `id` field. -/
def c7Headers : List String := ["article", "summary"]

/-- A two-field row for the `id`-less dataset. -/
def c7Row : Row := [("article", "a"), ("summary", "")]

theorem retryAux_succeeds {E A : Type} (op : ℕ → Except E A) (base : ℚ) (v : A) :
    ∀ (k n i : ℕ) (last : Option E) (slept : ℚ) (calls : ℕ),
      (∀ j, j < k → exceptOk (op (i + j)) = false) →
      op (i + k) = Except.ok v → k < n →
      retryAux op base i n last slept calls =
        ⟨Except.ok v, slept + ∑ j in Finset.range k, base * 2 ^ (i + j), calls + k + 1⟩ := by
  intro k
  induction k with
  | zero =>
      intro n i last slept calls _ hsucc hn
      obtain ⟨n', rfl⟩ : ∃ n', n = n' + 1 := ⟨n - 1, by omega⟩
      simp only [Nat.add_zero] at hsucc
      simp [retryAux, hsucc]
  | succ k ih =>
      intro n i last slept calls hfail hsucc hn
      obtain ⟨n', rfl⟩ : ∃ n', n = n' + 1 := ⟨n - 1, by omega⟩
      have h0 := hfail 0 (by omega)
      simp only [Nat.add_zero] at h0
      cases herr : op i with
      | ok a => rw [herr] at h0; simp [exceptOk] at h0
      | error e =>
          have step :
              retryAux op base i (n' + 1) last slept calls =
                retryAux op base (i + 1) n' (some e) (slept + base * 2 ^ i) (calls + 1) := by
            simp only [retryAux, herr]
          rw [step]
          rw [ih n' (i + 1) (some e) (slept + base * 2 ^ i) (calls + 1)
            (by intro j hj; have := hfail (j + 1) (by omega)
                have harg : i + (j + 1) = i + 1 + j := by omega
                rwa [harg] at this)
            (by have harg : i + (k + 1) = i + 1 + k := by omega
                rwa [harg] at hsucc)
            (by omega)]
          have hsum : ∑ j in Finset.range (k + 1), base * 2 ^ (i + j) =
              base * 2 ^ i + ∑ j in Finset.range k, base * 2 ^ (i + 1 + j) := by
            rw [Finset.sum_range_succ']
            have hcongr : ∑ j in Finset.range k, base * 2 ^ (i + (j + 1)) =
                ∑ j in Finset.range k, base * 2 ^ (i + 1 + j) :=
              Finset.sum_congr rfl (fun j _ => by
                rw [show i + (j + 1) = i + 1 + j from by omega])
            rw [hcongr]
            ring
          rw [RetryResult.mk.injEq]
          refine ⟨rfl, by rw [hsum]; ring, by omega⟩

theorem retryAux_all_fail {E A : Type} (op : ℕ → Except E A) (base : ℚ) (f : ℕ → E) :
    ∀ (n i : ℕ) (last : Option E) (slept : ℚ) (calls : ℕ),
      (∀ j, j < n → op (i + j) = Except.error (f (i + j))) →
      retryAux op base i n last slept calls =
        ⟨Except.error (if n = 0 then last else some (f (i + n - 1))),
         slept + ∑ j in Finset.range n, base * 2 ^ (i + j), calls + n⟩ := by
  intro n
  induction n with
  | zero => intro i last slept calls _; simp [retryAux]
  | succ n ih =>
      intro i last slept calls hfail
      have h0 := hfail 0 (by omega)
      simp only [Nat.add_zero] at h0
      have step :
          retryAux op base i (n + 1) last slept calls =
            retryAux op base (i + 1) n (some (f i)) (slept + base * 2 ^ i) (calls + 1) := by
        simp only [retryAux, h0]
      rw [step]
      rw [ih (i + 1) (some (f i)) (slept + base * 2 ^ i) (calls + 1)
        (by intro j hj; have := hfail (j + 1) (by omega)
            have harg : i + (j + 1) = i + 1 + j := by omega
            rwa [harg] at this)]
      have hsum : ∑ j in Finset.range (n + 1), base * 2 ^ (i + j) =
          base * 2 ^ i + ∑ j in Finset.range n, base * 2 ^ (i + 1 + j) := by
        rw [Finset.sum_range_succ']
        have hcongr : ∑ j in Finset.range n, base * 2 ^ (i + (j + 1)) =
            ∑ j in Finset.range n, base * 2 ^ (i + 1 + j) :=
          Finset.sum_congr rfl (fun j _ => by
            rw [show i + (j + 1) = i + 1 + j from by omega])
        rw [hcongr]
        ring
      rw [RetryResult.mk.injEq]
      refine ⟨?_, by rw [hsum]; ring, by omega⟩
      cases n with
      | zero => simp
      | succ n =>
          have h1 : ¬ (n + 1 + 1 = 0) := by omega
          have h2 : ¬ (n + 1 = 0) := by omega
          simp only [h1, h2, if_false]
          have : i + 1 + (n + 1) - 1 = i + (n + 1 + 1) - 1 := by omega
          rw [this]

theorem sum_base_pow_two (base : ℚ) (n : ℕ) :
    ∑ j in Finset.range n, base * 2 ^ j = base * (2 ^ n - 1) := by
  induction n with
  | zero => simp
  | succ n ih => rw [Finset.sum_range_succ, ih]; ring

theorem mergeState_empty_left (t : LoopState) :
    mergeState ⟨[], false, 0, [], []⟩ t = t := by
  cases t; simp [mergeState]

theorem mergeState_assoc (a b c : LoopState) :
    mergeState (mergeState a b) c = mergeState a (mergeState b c) := by
  cases a; cases b; cases c
  simp [mergeState, List.append_assoc, Bool.or_assoc, Nat.add_assoc]

theorem processRows_eq (tpl : String) (dry : Bool) (o : ℕ → ℕ → Except String String) :
    ∀ (rows : List Row) (i : ℕ) (s : LoopState),
      processRows tpl dry o i rows s = mergeState s (loopDelta tpl dry o i rows) := by
  intro rows
  induction rows with
  | nil =>
      intro i s
      cases s
      simp [processRows, loopDelta, mergeState]
  | cons row rest ih =>
      intro i s
      simp only [processRows, loopDelta, stepRow]
      rw [ih (i + 1) (mergeState s (rowDelta tpl dry o i row)), mergeState_assoc]

theorem processRows_from_empty (tpl : String) (dry : Bool)
    (o : ℕ → ℕ → Except String String) (rows : List Row) :
    processRows tpl dry o 0 rows ⟨[], false, 0, [], []⟩ = loopDelta tpl dry o 0 rows := by
  rw [processRows_eq, mergeState_empty_left]

theorem rowDelta_rows (tpl : String) (dry : Bool) (o : ℕ → ℕ → Except String String)
    (i : ℕ) (row : Row) :
    (rowDelta tpl dry o i row).rows = [newRow dry o i row] := by
  unfold rowDelta newRow
  cases hf : summaryFilled row with
  | true => simp
  | false =>
      cases dry with
      | true => simp
      | false =>
          simp only [if_false, Bool.false_eq_true]
          cases hr : (retry_backoff (o i) 4 1).result <;> simp [hr]

theorem loopDelta_rows (tpl : String) (dry : Bool) (o : ℕ → ℕ → Except String String) :
    ∀ (rows : List Row) (i : ℕ),
      (loopDelta tpl dry o i rows).rows = newRows dry o i rows := by
  intro rows
  induction rows with
  | nil => intro i; simp [loopDelta, newRows]
  | cons row rest ih =>
      intro i
      simp [loopDelta, newRows, mergeState, rowDelta_rows, ih (i + 1)]

theorem newRows_length (dry : Bool) (o : ℕ → ℕ → Except String String) :
    ∀ (rows : List Row) (i : ℕ), (newRows dry o i rows).length = rows.length := by
  intro rows
  induction rows with
  | nil => intro i; simp [newRows]
  | cons row rest ih => intro i; simp [newRows, ih (i + 1)]

theorem newRows_getElem (dry : Bool) (o : ℕ → ℕ → Except String String) :
    ∀ (rows : List Row) (i j : ℕ),
      (newRows dry o i rows)[j]? = Option.map (newRow dry o (i + j)) rows[j]? := by
  intro rows
  induction rows with
  | nil => intro i j; simp [newRows]
  | cons row rest ih =>
      intro i j
      cases j with
      | zero => simp [newRows]
      | succ j =>
          simp only [newRows, List.getElem?_cons_succ]
          rw [ih (i + 1) j]
          have : i + 1 + j = i + (j + 1) := by omega
          rw [this]

theorem rowGet_rowSet_same (k v : String) :
    ∀ r : Row, rowGet (rowSet r k v) k = some v := by
  intro r
  unfold rowSet
  cases hfind : (r.find? (fun p => p.1 == k)).isSome with
  | true =>
      simp only [if_true]
      induction r with
      | nil => simp at hfind
      | cons p rest ih =>
          cases hp : p.1 == k with
          | true =>
              simp [rowGet, List.find?, hp]
          | false =>
              simp only [List.map_cons, hp, if_false, Bool.false_eq_true]
              rw [rowGet] at *
              simp only [List.find?, hp] at hfind
              simp only [List.find?_cons, hp]
              exact ih hfind
  | false =>
      simp only [if_false, Bool.false_eq_true]
      induction r with
      | nil => simp [rowGet]
      | cons p rest ih =>
          simp only [List.find?, Bool.false_eq_true] at hfind
          cases hp : p.1 == k with
          | true => simp [hp] at hfind
          | false =>
              rw [hp] at hfind
              rw [rowGet]
              simp only [List.cons_append, List.find?_cons, hp]
              exact ih hfind

theorem find_set_ne (k k' v : String) (hne : ¬ k' = k) :
    ∀ r : Row,
      (r.map (fun p => if p.1 == k then (k, v) else p)).find? (fun p => p.1 == k') =
        r.find? (fun p => p.1 == k') := by
  intro r
  induction r with
  | nil => rfl
  | cons p rest ih =>
      have hkk : ¬ (((k, v) : String × String).1 == k') = true := by
        simp
        exact fun h => hne h.symm
      rw [List.map_cons]
      by_cases hp : p.1 = k
      · have hfp : (if (p.1 == k) = true then (k, v) else p) = (k, v) := by
          simp [hp]
        have hpk : ¬ (p.1 == k') = true := by
          simp [hp]
          exact fun h => hne h.symm
        rw [hfp,
          @List.find?_cons_of_neg (String × String) (fun q => q.1 == k') (k, v)
            (rest.map (fun q => if q.1 == k then (k, v) else q)) hkk,
          @List.find?_cons_of_neg (String × String) (fun q => q.1 == k') p rest hpk]
        exact ih
      · have hfp : (if (p.1 == k) = true then (k, v) else p) = p := by
          simp [hp]
        rw [hfp]
        by_cases hq : p.1 = k'
        · have hqb : (p.1 == k') = true := by simpa using hq
          rw [@List.find?_cons_of_pos (String × String) (fun q => q.1 == k') p
                (rest.map (fun q => if q.1 == k then (k, v) else q)) hqb,
              @List.find?_cons_of_pos (String × String) (fun q => q.1 == k') p rest hqb]
        · have hqb : ¬ (p.1 == k') = true := by simpa using hq
          rw [@List.find?_cons_of_neg (String × String) (fun q => q.1 == k') p
                (rest.map (fun q => if q.1 == k then (k, v) else q)) hqb,
              @List.find?_cons_of_neg (String × String) (fun q => q.1 == k') p rest hqb]
          exact ih

theorem rowGet_rowSet_ne (k k' v : String) (hne : ¬ k' = k) :
    ∀ r : Row, rowGet (rowSet r k v) k' = rowGet r k' := by
  intro r
  unfold rowSet
  cases hfind : (r.find? (fun p => p.1 == k)).isSome with
  | true =>
      simp only [if_true]
      rw [rowGet, rowGet, find_set_ne k k' v hne r]
  | false =>
      simp only [if_false, Bool.false_eq_true]
      rw [rowGet, rowGet, List.find?_append]
      have : List.find? (fun p => p.1 == k') [(k, v)] = none := by
        simp; intro h; exact hne h.symm
      rw [this]
      simp

theorem newRow_filled (dry : Bool) (o : ℕ → ℕ → Except String String)
    (i : ℕ) (row : Row) (h : summaryFilled row = true) :
    newRow dry o i row = row := by
  simp [newRow, h]

theorem newRow_rowGet_ne (dry : Bool) (o : ℕ → ℕ → Except String String)
    (i : ℕ) (row : Row) (k : String) (hk : ¬ k = "summary") :
    rowGet (newRow dry o i row) k = rowGet row k := by
  unfold newRow
  cases hf : summaryFilled row with
  | true => simp
  | false =>
      cases dry with
      | true => simp [rowGet_rowSet_ne _ _ _ hk]
      | false =>
          simp only [if_false, Bool.false_eq_true]
          cases hr : (retry_backoff (o i) 4 1).result with
          | ok s => simp [hr, rowGet_rowSet_ne _ _ _ hk]
          | error e => simp [hr]

theorem rowDelta_updated (tpl : String) (dry : Bool) (o : ℕ → ℕ → Except String String)
    (i : ℕ) (row : Row) :
    (rowDelta tpl dry o i row).updated = true ↔ rowAssigned dry o i row := by
  unfold rowDelta rowAssigned
  cases hf : summaryFilled row with
  | true => simp
  | false =>
      cases dry with
      | true => simp
      | false =>
          simp only [if_false, Bool.false_eq_true]
          cases hr : (retry_backoff (o i) 4 1).result with
          | ok s => simp [hr]
          | error e => simp [hr]

theorem loopDelta_updated (tpl : String) (dry : Bool) (o : ℕ → ℕ → Except String String) :
    ∀ (rows : List Row) (i : ℕ),
      (loopDelta tpl dry o i rows).updated = true ↔
        ∃ j, ∃ row, rows[j]? = some row ∧ rowAssigned dry o (i + j) row := by
  intro rows
  induction rows with
  | nil => intro i; simp [loopDelta]
  | cons row rest ih =>
      intro i
      simp only [loopDelta, mergeState, Bool.or_eq_true]
      constructor
      · rintro (h | h)
        · exact ⟨0, row, by simp, by simpa using (rowDelta_updated tpl dry o i row).1 h⟩
        · obtain ⟨j, r, hj, ha⟩ := (ih (i + 1)).1 h
          refine ⟨j + 1, r, by simpa using hj, ?_⟩
          have : i + 1 + j = i + (j + 1) := by omega
          rwa [this] at ha
      · rintro ⟨j, r, hj, ha⟩
        cases j with
        | zero =>
            left
            simp only [List.getElem?_cons_zero, Option.some.injEq] at hj
            rw [← hj] at ha
            exact (rowDelta_updated tpl dry o i row).2 ha
        | succ j =>
            right
            refine (ih (i + 1)).2 ⟨j, r, by simpa using hj, ?_⟩
            have : i + (j + 1) = i + 1 + j := by omega
            rwa [this] at ha

theorem rowDelta_filled (tpl : String) (dry : Bool) (o : ℕ → ℕ → Except String String)
    (i : ℕ) (row : Row) (h : summaryFilled row = true) :
    rowDelta tpl dry o i row = ⟨[row], false, 0, [], []⟩ := by
  simp [rowDelta, h]

theorem loopDelta_all_filled (tpl : String) (dry : Bool) (o : ℕ → ℕ → Except String String) :
    ∀ (rows : List Row) (i : ℕ), (∀ r ∈ rows, summaryFilled r = true) →
      loopDelta tpl dry o i rows = ⟨rows, false, 0, [], []⟩ := by
  intro rows
  induction rows with
  | nil => intro i _; rfl
  | cons row rest ih =>
      intro i hall
      rw [loopDelta, rowDelta_filled tpl dry o i row (hall row (by simp)),
        ih (i + 1) (fun r hr => hall r (by simp [hr]))]
      simp [mergeState]

theorem rowDelta_calls_dry (tpl : String) (o : ℕ → ℕ → Except String String)
    (i : ℕ) (row : Row) : (rowDelta tpl true o i row).calls = 0 := by
  unfold rowDelta
  cases hf : summaryFilled row <;> simp

theorem loopDelta_calls_dry (tpl : String) (o : ℕ → ℕ → Except String String) :
    ∀ (rows : List Row) (i : ℕ), (loopDelta tpl true o i rows).calls = 0 := by
  intro rows
  induction rows with
  | nil => intro i; rfl
  | cons row rest ih =>
      intro i
      simp [loopDelta, mergeState, rowDelta_calls_dry, ih (i + 1)]

theorem rowDelta_rows_of_not_updated (tpl : String) (dry : Bool)
    (o : ℕ → ℕ → Except String String) (i : ℕ) (row : Row)
    (h : (rowDelta tpl dry o i row).updated = false) :
    (rowDelta tpl dry o i row).rows = [row] := by
  unfold rowDelta at *
  cases hf : summaryFilled row with
  | true => simp
  | false =>
      rw [hf] at h
      cases dry with
      | true => simp at h
      | false =>
          simp only [if_false, Bool.false_eq_true] at *
          cases hr : (retry_backoff (o i) 4 1).result with
          | ok s => rw [hr] at h; simp at h
          | error e => simp [hr]

theorem loopDelta_rows_of_not_updated (tpl : String) (dry : Bool)
    (o : ℕ → ℕ → Except String String) :
    ∀ (rows : List Row) (i : ℕ), (loopDelta tpl dry o i rows).updated = false →
      (loopDelta tpl dry o i rows).rows = rows := by
  intro rows
  induction rows with
  | nil => intro i _; rfl
  | cons row rest ih =>
      intro i h
      simp only [loopDelta, mergeState, Bool.or_eq_false_iff] at h ⊢
      rw [rowDelta_rows_of_not_updated tpl dry o i row h.1, ih (i + 1) h.2]
      rfl

theorem loopDelta_errlog_mem (tpl : String) (dry : Bool)
    (o : ℕ → ℕ → Except String String) :
    ∀ (rows : List Row) (i j : ℕ) (row : Row), rows[j]? = some row →
      ∀ x ∈ (rowDelta tpl dry o (i + j) row).errlog,
        x ∈ (loopDelta tpl dry o i rows).errlog := by
  intro rows
  induction rows with
  | nil => intro i j row hj; simp at hj
  | cons row rest ih =>
      intro i j r hj x hx
      simp only [loopDelta, mergeState, List.mem_append]
      cases j with
      | zero =>
          left
          simp only [List.getElem?_cons_zero, Option.some.injEq] at hj
          rw [← hj] at hx
          simpa using hx
      | succ j =>
          right
          refine ih (i + 1) j r (by simpa using hj) x ?_
          have : i + 1 + j = i + (j + 1) := by omega
          rw [this]
          exact hx

theorem loopDelta_prints_mem (tpl : String) (dry : Bool)
    (o : ℕ → ℕ → Except String String) :
    ∀ (rows : List Row) (i j : ℕ) (row : Row), rows[j]? = some row →
      ∀ x ∈ (rowDelta tpl dry o (i + j) row).prints,
        x ∈ (loopDelta tpl dry o i rows).prints := by
  intro rows
  induction rows with
  | nil => intro i j row hj; simp at hj
  | cons row rest ih =>
      intro i j r hj x hx
      simp only [loopDelta, mergeState, List.mem_append]
      cases j with
      | zero =>
          left
          simp only [List.getElem?_cons_zero, Option.some.injEq] at hj
          rw [← hj] at hx
          simpa using hx
      | succ j =>
          right
          refine ih (i + 1) j r (by simpa using hj) x ?_
          have : i + 1 + j = i + (j + 1) := by omega
          rw [this]
          exact hx

theorem process_csv_valid (headers : List String) (rows : List Row) (tpl : String)
    (dry : Bool) (o : ℕ → ℕ → Except String String)
    (hh : (headers.contains "article" && headers.contains "summary") = true) :
    process_csv (some headers) rows tpl dry o =
      if (loopDelta tpl dry o 0 rows).updated then
        ⟨(loopDelta tpl dry o 0 rows).rows, true, (loopDelta tpl dry o 0 rows).calls,
         (loopDelta tpl dry o 0 rows).errlog,
         (loopDelta tpl dry o 0 rows).prints ++ ["Wrote updates."],
         Persist.atomicReplace headers (loopDelta tpl dry o 0 rows).rows, none⟩
      else
        ⟨(loopDelta tpl dry o 0 rows).rows, false, (loopDelta tpl dry o 0 rows).calls,
         (loopDelta tpl dry o 0 rows).errlog,
         (loopDelta tpl dry o 0 rows).prints ++ ["No updates needed."],
         Persist.noWrite, none⟩ := by
  simp only [process_csv, hh, if_true, processRows_from_empty]

theorem process_csv_rows (headers : List String) (rows : List Row) (tpl : String)
    (dry : Bool) (o : ℕ → ℕ → Except String String)
    (hh : (headers.contains "article" && headers.contains "summary") = true) :
    (process_csv (some headers) rows tpl dry o).rows = newRows dry o 0 rows := by
  rw [process_csv_valid headers rows tpl dry o hh]
  cases hu : (loopDelta tpl dry o 0 rows).updated <;> simp [hu, loopDelta_rows]

theorem process_csv_calls (headers : List String) (rows : List Row) (tpl : String)
    (dry : Bool) (o : ℕ → ℕ → Except String String)
    (hh : (headers.contains "article" && headers.contains "summary") = true) :
    (process_csv (some headers) rows tpl dry o).calls = (loopDelta tpl dry o 0 rows).calls := by
  rw [process_csv_valid headers rows tpl dry o hh]
  cases hu : (loopDelta tpl dry o 0 rows).updated <;> simp [hu]

theorem process_csv_errlog (headers : List String) (rows : List Row) (tpl : String)
    (dry : Bool) (o : ℕ → ℕ → Except String String)
    (hh : (headers.contains "article" && headers.contains "summary") = true) :
    (process_csv (some headers) rows tpl dry o).errlog = (loopDelta tpl dry o 0 rows).errlog := by
  rw [process_csv_valid headers rows tpl dry o hh]
  cases hu : (loopDelta tpl dry o 0 rows).updated <;> simp [hu]

theorem process_csv_exit (headers : List String) (rows : List Row) (tpl : String)
    (dry : Bool) (o : ℕ → ℕ → Except String String)
    (hh : (headers.contains "article" && headers.contains "summary") = true) :
    (process_csv (some headers) rows tpl dry o).exitCode = none := by
  rw [process_csv_valid headers rows tpl dry o hh]
  cases hu : (loopDelta tpl dry o 0 rows).updated <;> simp [hu]

theorem process_csv_updated (headers : List String) (rows : List Row) (tpl : String)
    (dry : Bool) (o : ℕ → ℕ → Except String String)
    (hh : (headers.contains "article" && headers.contains "summary") = true) :
    (process_csv (some headers) rows tpl dry o).updated = (loopDelta tpl dry o 0 rows).updated := by
  rw [process_csv_valid headers rows tpl dry o hh]
  cases hu : (loopDelta tpl dry o 0 rows).updated <;> simp [hu]

theorem process_csv_persist (headers : List String) (rows : List Row) (tpl : String)
    (dry : Bool) (o : ℕ → ℕ → Except String String)
    (hh : (headers.contains "article" && headers.contains "summary") = true) :
    (process_csv (some headers) rows tpl dry o).persist =
      if (loopDelta tpl dry o 0 rows).updated then
        Persist.atomicReplace headers (newRows dry o 0 rows)
      else Persist.noWrite := by
  rw [process_csv_valid headers rows tpl dry o hh]
  cases hu : (loopDelta tpl dry o 0 rows).updated <;> simp [hu, loopDelta_rows]

theorem process_csv_prints_mono (headers : List String) (rows : List Row) (tpl : String)
    (dry : Bool) (o : ℕ → ℕ → Except String String)
    (hh : (headers.contains "article" && headers.contains "summary") = true) :
    ∀ x ∈ (loopDelta tpl dry o 0 rows).prints,
      x ∈ (process_csv (some headers) rows tpl dry o).prints := by
  rw [process_csv_valid headers rows tpl dry o hh]
  cases hu : (loopDelta tpl dry o 0 rows).updated <;> simp_all

theorem process_csv_invalid (headers : List String) (rows : List Row) (tpl : String)
    (dry : Bool) (o : ℕ → ℕ → Except String String)
    (hfalse : (headers.contains "article" && headers.contains "summary") = false) :
    process_csv (some headers) rows tpl dry o =
      ⟨rows, false, 0, [],
       ["CSV must include headers and contain article and summary columns."],
       Persist.noWrite, some 1⟩ := by
  simp only [process_csv, hfalse, Bool.false_eq_true, if_false]

/-- C1: for every zero-argument operation that fails exactly `k` times and
then succeeds, and every `maxRetries ≥ k+1` and `base`, `retry_backoff`
returns the operation's success value after invoking it `k+1` times, and
the cumulative sleep performed before returning is
`base*2^0 + base*2^1 + ... + base*2^(k-1)`. -/
theorem claim_C1 {E A : Type} (op : ℕ → Except E A) (k : ℕ) (v : A) (m : ℤ) (base : ℚ)
    (hfail : ∀ j, j < k → exceptOk (op j) = false)
    (hsucc : op k = Except.ok v) (hm : (k : ℤ) + 1 ≤ m) :
    retry_backoff op m base =
      ⟨Except.ok v, ∑ j in Finset.range k, base * 2 ^ j, k + 1⟩ := by
  unfold retry_backoff
  have hk : k < m.toNat := by omega
  have h := retryAux_succeeds op base v k m.toNat 0 none 0 0
    (by intro j hj; simpa using hfail j hj)
    (by simpa using hsucc) hk
  rw [h]
  rw [RetryResult.mk.injEq]
  refine ⟨rfl, ?_, by omega⟩
  rw [Finset.sum_congr rfl (fun j _ => by rw [Nat.zero_add] : ∀ j ∈ Finset.range k,
    base * 2 ^ (0 + j) = base * 2 ^ j)]
  ring

/-- Witness for C1: `opC1` fails twice then returns `done`; with
`max_retries = 4` and `base = 1` the executor returns `done` after three
invocations, having slept `1*2^0 + 1*2^1 = 3`. -/
theorem claim_C1_witness :
    retry_backoff opC1 4 1 =
      ⟨Except.ok "done", ∑ j in Finset.range 2, (1 : ℚ) * 2 ^ j, 2 + 1⟩ :=
  claim_C1 opC1 2 "done" 4 1 (by decide) (by decide) (by decide)

/-- C9: for `max_retries ≤ 0` the loop body never runs: the operation is
never invoked (0 calls, and the result does not depend on `op` at all), no
sleep happens, and `raise last_exc` raises `None` — a failure that is not
any operation error, embedded as `Except.error none`. -/
theorem claim_C9 {E A : Type} (op : ℕ → Except E A) (m : ℤ) (base : ℚ) (hm : m ≤ 0) :
    retry_backoff op m base = ⟨Except.error none, 0, 0⟩ := by
  unfold retry_backoff
  have h0 : m.toNat = 0 := by omega
  rw [h0]
  rfl

/-- Witness for C9 at `max_retries = 0`. -/
theorem claim_C9_witness :
    retry_backoff opC9 0 1 = ⟨Except.error none, 0, 0⟩ :=
  claim_C9 opC9 0 1 (by decide)

/-- C10: when the operation fails on all `maxRetries = n ≥ 1` attempts, a
sleep follows every failure including the final one, so the cumulative
delay before the last failure is propagated is
`base*(2^0 + ... + 2^(n-1)) = base*(2^n - 1)`, and the propagated failure
is the last observed error `f (n-1)`. -/
theorem claim_C10 {E A : Type} (op : ℕ → Except E A) (f : ℕ → E) (n : ℕ) (base : ℚ)
    (hfail : ∀ j, j < n → op j = Except.error (f j)) (hn : 0 < n) :
    retry_backoff op (n : ℤ) base =
      ⟨Except.error (some (f (n - 1))), base * (2 ^ n - 1), n⟩ := by
  unfold retry_backoff
  have ht : ((n : ℤ)).toNat = n := by omega
  rw [ht]
  have h := retryAux_all_fail op base f n 0 none 0 0
    (by intro j hj; simpa using hfail j hj)
  rw [h]
  have hn0 : ¬ n = 0 := by omega
  rw [RetryResult.mk.injEq]
  refine ⟨by simp [hn0], ?_, by omega⟩
  rw [Finset.sum_congr rfl (fun j _ => by rw [Nat.zero_add] : ∀ j ∈ Finset.range n,
    base * 2 ^ (0 + j) = base * 2 ^ j)]
  rw [sum_base_pow_two]
  ring

/-- Witness for C10: `opC10` fails on both of 2 attempts; the executor
sleeps `1*(2^2 - 1) = 3` in total and propagates the second error. -/
theorem claim_C10_witness :
    retry_backoff opC10 ((2 : ℕ) : ℤ) 1 =
      ⟨Except.error (some (fC10 1)), 1 * (2 ^ 2 - 1), 2⟩ :=
  claim_C10 opC10 fC10 2 1 (by decide) (by decide)

/-- C2: a row whose `summary` is present and non-blank after trimming is
skipped: the processed dataset has the same number of rows and holds that
row unchanged (every field) at the same position. -/
theorem claim_C2 (headers? : Option (List String)) (rows : List Row) (tpl : String)
    (dry : Bool) (o : ℕ → ℕ → Except String String) (i : ℕ) (hi : i < rows.length)
    (hf : summaryFilled rows[i] = true) :
    (process_csv headers? rows tpl dry o).rows.length = rows.length ∧
    (process_csv headers? rows tpl dry o).rows[i]? = some rows[i] := by
  have hget : rows[i]? = some rows[i] := List.getElem?_eq_getElem hi
  cases headers? with
  | none => exact ⟨rfl, hget⟩
  | some headers =>
      by_cases hh : (headers.contains "article" && headers.contains "summary") = true
      · rw [process_csv_rows headers rows tpl dry o hh]
        refine ⟨newRows_length dry o rows 0, ?_⟩
        rw [newRows_getElem dry o rows 0 i, hget]
        simp only [Option.map_some']
        rw [newRow_filled dry o (0 + i) (rows[i]) hf]
      · have hfalse : (headers.contains "article" && headers.contains "summary") = false := by
          revert hh
          cases headers.contains "article" && headers.contains "summary" <;> simp
        rw [process_csv_invalid headers rows tpl dry o hfalse]
        exact ⟨rfl, hget⟩

/-- Witness for C2: a dataset whose only row is already summarized is left
unchanged by a dry run. -/
theorem claim_C2_witness :
    (process_csv (some wHeaders) [fRow] "T" true wOracle).rows.length = 1 ∧
    (process_csv (some wHeaders) [fRow] "T" true wOracle).rows[0]? = some fRow := by
  have h := claim_C2 (some wHeaders) [fRow] "T" true wOracle 0 (by decide) (by decide)
  simpa using h

/-- C3: when the call for row `i` fails on all 4 attempts, `retry_backoff`
propagates the last observed failure `f 3` (after `1*(2^4-1) = 15` total
sleep and 4 invocations); the processor catches it at row level, appends
the record `(row id, error message)` to the error log, leaves the row
unchanged, and continues: every row is still processed and no exit is
taken. -/
theorem claim_C3 (headers : List String) (rows : List Row) (tpl : String)
    (o : ℕ → ℕ → Except String String) (i : ℕ) (f : ℕ → String)
    (hh : (headers.contains "article" && headers.contains "summary") = true)
    (hi : i < rows.length) (hw : summaryFilled rows[i] = false)
    (hfail : ∀ j, j < 4 → o i j = Except.error (f j)) :
    retry_backoff (o i) 4 1 = ⟨Except.error (some (f 3)), 15, 4⟩ ∧
    (rowGet (rows[i]) "id", f 3) ∈ (process_csv (some headers) rows tpl false o).errlog ∧
    (process_csv (some headers) rows tpl false o).rows[i]? = some rows[i] ∧
    (process_csv (some headers) rows tpl false o).rows.length = rows.length ∧
    (process_csv (some headers) rows tpl false o).exitCode = none := by
  have hr : retry_backoff (o i) 4 1 = ⟨Except.error (some (f 3)), 15, 4⟩ := by
    unfold retry_backoff
    have h4 : (4 : ℤ).toNat = 4 := rfl
    rw [h4]
    have h := retryAux_all_fail (o i) 1 f 4 0 none 0 0
      (by intro j hj; simpa using hfail j hj)
    rw [h]
    norm_num [Finset.sum_range_succ]
  have hd : (rowDelta tpl false o i (rows[i])).errlog = [(rowGet (rows[i]) "id", f 3)] := by
    simp [rowDelta, hw, hr, errMsg]
  refine ⟨hr, ?_, ?_, ?_, process_csv_exit headers rows tpl false o hh⟩
  · rw [process_csv_errlog headers rows tpl false o hh]
    refine loopDelta_errlog_mem tpl false o rows 0 i (rows[i])
      (List.getElem?_eq_getElem hi) (rowGet (rows[i]) "id", f 3) ?_
    simp only [Nat.zero_add]
    rw [hd]
    simp
  · rw [process_csv_rows headers rows tpl false o hh]
    rw [newRows_getElem false o rows 0 i, List.getElem?_eq_getElem hi]
    simp only [Option.map_some']
    have hnr : newRow false o (0 + i) (rows[i]) = rows[i] := by
      simp [newRow, hw, hr]
    rw [hnr]
  · rw [process_csv_rows headers rows tpl false o hh]
    exact newRows_length false o rows 0

/-- Witness for C3: the single row with id 7 and blank summary; the call
always fails with `boom`; the error log records it and the row survives. -/
theorem claim_C3_witness :
    retry_backoff (wOracle 0) 4 1 = ⟨Except.error (some "boom"), 15, 4⟩ ∧
    (rowGet wRow "id", "boom") ∈ (process_csv (some wHeaders) [wRow] "T" false wOracle).errlog ∧
    (process_csv (some wHeaders) [wRow] "T" false wOracle).rows[0]? = some wRow ∧
    (process_csv (some wHeaders) [wRow] "T" false wOracle).rows.length = 1 ∧
    (process_csv (some wHeaders) [wRow] "T" false wOracle).exitCode = none :=
  claim_C3 wHeaders [wRow] "T" wOracle 0 (fun _ => "boom") (by decide) (by decide)
    (by decide) (fun _ _ => rfl)

/-- C5: in a dry run the external adapter is never invoked (0 calls); every
row needing work gets the fixed placeholder written into `summary` and the
first 1000 characters of its rendered prompt printed; and if any row needed
work the dataset is dirty and is written. -/
theorem claim_C5 (headers : List String) (rows : List Row) (tpl : String)
    (o : ℕ → ℕ → Except String String)
    (hh : (headers.contains "article" && headers.contains "summary") = true) :
    (process_csv (some headers) rows tpl true o).calls = 0 ∧
    (∀ i, ∀ hi : i < rows.length, summaryFilled rows[i] = false →
      (process_csv (some headers) rows tpl true o).rows[i]? =
        some (rowSet (rows[i]) "summary" "[dry-run] summary would be written here") ∧
      (render_prompt tpl (rowGetD (rows[i]) "article" "")).take 1000 ∈
        (process_csv (some headers) rows tpl true o).prints) ∧
    ((∃ i, ∃ hi : i < rows.length, summaryFilled rows[i] = false) →
      (process_csv (some headers) rows tpl true o).updated = true ∧
      (process_csv (some headers) rows tpl true o).persist =
        Persist.atomicReplace headers ((process_csv (some headers) rows tpl true o).rows)) := by
  refine ⟨?_, ?_, ?_⟩
  · rw [process_csv_calls headers rows tpl true o hh, loopDelta_calls_dry]
  · intro i hi hw
    constructor
    · rw [process_csv_rows headers rows tpl true o hh, newRows_getElem true o rows 0 i,
        List.getElem?_eq_getElem hi]
      simp only [Option.map_some']
      have hstep : newRow true o (0 + i) (rows[i]) =
          rowSet (rows[i]) "summary" "[dry-run] summary would be written here" := by
        simp [newRow, hw]
      rw [hstep]
    · refine process_csv_prints_mono headers rows tpl true o hh _ ?_
      refine loopDelta_prints_mem tpl true o rows 0 i (rows[i])
        (List.getElem?_eq_getElem hi) _ ?_
      simp [rowDelta, hw]
  · rintro ⟨i, hi, hw⟩
    have hupd : (loopDelta tpl true o 0 rows).updated = true := by
      refine (loopDelta_updated tpl true o rows 0).2
        ⟨i, rows[i], List.getElem?_eq_getElem hi, hw, Or.inl rfl⟩
    constructor
    · rw [process_csv_updated headers rows tpl true o hh]
      exact hupd
    · rw [process_csv_persist headers rows tpl true o hh, hupd,
        process_csv_rows headers rows tpl true o hh]
      simp

/-- Witness for C5: the single blank row gets the placeholder and its
prompt preview printed; no call is made. -/
theorem claim_C5_witness :
    (process_csv (some wHeaders) [wRow] "T" true gOracle).calls = 0 ∧
    (process_csv (some wHeaders) [wRow] "T" true gOracle).rows[0]? =
      some (rowSet wRow "summary" "[dry-run] summary would be written here") ∧
    (render_prompt "T" (rowGetD wRow "article" "")).take 1000 ∈
      (process_csv (some wHeaders) [wRow] "T" true gOracle).prints ∧
    (process_csv (some wHeaders) [wRow] "T" true gOracle).updated = true := by
  have h := claim_C5 wHeaders [wRow] "T" gOracle (by decide)
  have h2 := h.2.1 0 (by decide) (by decide)
  have h3 := h.2.2 ⟨0, by decide, by decide⟩
  exact ⟨h.1, h2.1, h2.2, h3.1⟩

/-- Counterexample to C4 as stated ("written iff at least one row
changed"): one row with `summary` already the empty string and a call that
succeeds with the empty string — after processing the rows are identical
to the input (nothing changed), yet the file is written. -/
theorem claim_C4_cex :
    (process_csv (some wHeaders) [wRow] "T" false cOracle).rows = [wRow] ∧
    (process_csv (some wHeaders) [wRow] "T" false cOracle).persist ≠ Persist.noWrite := by
  exact ⟨by decide, by decide⟩

/-- C4 amended: the file is written — atomically, via a temp file in the
target's directory renamed over the target — iff at least one row was
ASSIGNED a summary (row needs work, and dry-run or the retried call
succeeds); an assignment may store a value equal to the prior one, so
"assigned" is weaker than the claim's "changed".  When no row is assigned,
no write occurs and the rows are unchanged. -/
theorem claim_C4_amended (headers : List String) (rows : List Row) (tpl : String)
    (dry : Bool) (o : ℕ → ℕ → Except String String)
    (hh : (headers.contains "article" && headers.contains "summary") = true) :
    ((∃ i, ∃ row, rows[i]? = some row ∧ rowAssigned dry o i row) ↔
      (process_csv (some headers) rows tpl dry o).persist =
        Persist.atomicReplace headers ((process_csv (some headers) rows tpl dry o).rows)) ∧
    ((¬ ∃ i, ∃ row, rows[i]? = some row ∧ rowAssigned dry o i row) →
      (process_csv (some headers) rows tpl dry o).persist = Persist.noWrite ∧
      (process_csv (some headers) rows tpl dry o).rows = rows) := by
  have hiff := loopDelta_updated tpl dry o rows 0
  constructor
  · constructor
    · intro hex
      have hupd : (loopDelta tpl dry o 0 rows).updated = true := by
        refine hiff.2 ?_
        simpa using hex
      rw [process_csv_persist headers rows tpl dry o hh, hupd,
        process_csv_rows headers rows tpl dry o hh]
      simp
    · intro hp
      by_cases hupd : (loopDelta tpl dry o 0 rows).updated = true
      · simpa using hiff.1 hupd
      · exfalso
        have hfalse : (loopDelta tpl dry o 0 rows).updated = false := by
          revert hupd
          cases (loopDelta tpl dry o 0 rows).updated <;> simp
        rw [process_csv_persist headers rows tpl dry o hh, hfalse] at hp
        simp at hp
  · intro hnex
    have hfalse : (loopDelta tpl dry o 0 rows).updated = false := by
      cases hu : (loopDelta tpl dry o 0 rows).updated
      · rfl
      · exact absurd (by simpa using hiff.1 hu) hnex
    constructor
    · rw [process_csv_persist headers rows tpl dry o hh, hfalse]
      simp
    · rw [process_csv_rows headers rows tpl dry o hh,
        ← loopDelta_rows tpl dry o rows 0]
      exact loopDelta_rows_of_not_updated tpl dry o rows 0 hfalse

/-- Witness for C4 (amended): a blank row and a succeeding call make the
file be written with the processed rows. -/
theorem claim_C4_witness :
    (process_csv (some wHeaders) [wRow] "T" false gOracle).persist =
      Persist.atomicReplace wHeaders ((process_csv (some wHeaders) [wRow] "T" false gOracle).rows) := by
  have h := claim_C4_amended wHeaders [wRow] "T" false gOracle (by decide)
  exact h.1.1 ⟨0, wRow, by decide, by decide, Or.inr ⟨"S", rfl⟩⟩

theorem pyTruthy_of_strip (s : String) (h : pyTruthy (pyStrip s) = true) :
    pyTruthy s = true := by
  by_cases hs : s = ""
  · rw [hs] at h
    exact absurd h (by decide)
  · simp [pyTruthy, hs]

theorem summaryFilled_rowSet (row : Row) (s : String)
    (h : pyTruthy (pyStrip s) = true) :
    summaryFilled (rowSet row "summary" s) = true := by
  unfold summaryFilled
  rw [rowGet_rowSet_same "summary" s row]
  simp [pyTruthy_of_strip s h, h]

theorem newRows_all_filled (o1 : ℕ → ℕ → Except String String) :
    ∀ (rows : List Row) (i : ℕ),
      (∀ j, ∀ hj : j < rows.length, summaryFilled rows[j] = false →
        ∃ s, (retry_backoff (o1 (i + j)) 4 1).result = Except.ok s ∧
          pyTruthy (pyStrip s) = true) →
      ∀ r ∈ newRows false o1 i rows, summaryFilled r = true := by
  intro rows
  induction rows with
  | nil => intro i _ r hr; simp [newRows] at hr
  | cons row rest ih =>
      intro i hsucc r hr
      simp only [newRows, List.mem_cons] at hr
      cases hr with
      | inl hr0 =>
          subst hr0
          by_cases hf : summaryFilled row = true
          · rw [newRow_filled false o1 i row hf]
            exact hf
          · have hf2 : summaryFilled row = false := by
              revert hf
              cases summaryFilled row <;> simp
            obtain ⟨s, hok, hsnb⟩ := hsucc 0 (by simp) hf2
            simp only [Nat.add_zero] at hok
            have hstep : newRow false o1 i row = rowSet row "summary" s := by
              simp [newRow, hf2, hok]
            rw [hstep]
            exact summaryFilled_rowSet row s hsnb
      | inr hrr =>
          refine ih (i + 1) (fun j hj hw => ?_) r hrr
          have h := hsucc (j + 1) (by simpa using hj) (by simpa using hw)
          have harg : i + (j + 1) = i + 1 + j := by omega
          rwa [harg] at h

/-- Counterexample to C6 as stated: a call may succeed with a blank string.
First run: one blank row, the call succeeds with the empty string, no call
fails (empty error log) and the file is written; yet on the first run's
output the second run performs an external call (calls other than zero) and
writes the file again. -/
theorem claim_C6_cex :
    (process_csv (some wHeaders) [wRow] "T" false cOracle).errlog = [] ∧
    (process_csv (some wHeaders)
        ((process_csv (some wHeaders) [wRow] "T" false cOracle).rows)
        "T" false cOracle).calls ≠ 0 ∧
    (process_csv (some wHeaders)
        ((process_csv (some wHeaders) [wRow] "T" false cOracle).rows)
        "T" false cOracle).persist ≠ Persist.noWrite := by
  exact ⟨by decide, by decide, by decide⟩

/-- C6 amended: if in the first run every row needing work receives a
successful call whose text is non-blank after stripping, then a second run
on the first run's output — with any oracle — performs zero external
calls, leaves every row identical, logs no error, and does not write the
file. -/
theorem claim_C6_amended (headers : List String) (rows : List Row) (tpl tpl2 : String)
    (o1 o2 : ℕ → ℕ → Except String String)
    (hh : (headers.contains "article" && headers.contains "summary") = true)
    (hsucc : ∀ i, ∀ hi : i < rows.length, summaryFilled rows[i] = false →
      ∃ s, (retry_backoff (o1 i) 4 1).result = Except.ok s ∧
        pyTruthy (pyStrip s) = true) :
    (process_csv (some headers) ((process_csv (some headers) rows tpl false o1).rows)
      tpl2 false o2).calls = 0 ∧
    (process_csv (some headers) ((process_csv (some headers) rows tpl false o1).rows)
      tpl2 false o2).rows = (process_csv (some headers) rows tpl false o1).rows ∧
    (process_csv (some headers) ((process_csv (some headers) rows tpl false o1).rows)
      tpl2 false o2).errlog = [] ∧
    (process_csv (some headers) ((process_csv (some headers) rows tpl false o1).rows)
      tpl2 false o2).updated = false ∧
    (process_csv (some headers) ((process_csv (some headers) rows tpl false o1).rows)
      tpl2 false o2).persist = Persist.noWrite := by
  have hall : ∀ r ∈ (process_csv (some headers) rows tpl false o1).rows,
      summaryFilled r = true := by
    rw [process_csv_rows headers rows tpl false o1 hh]
    refine newRows_all_filled o1 rows 0 (fun j hj hw => ?_)
    simpa using hsucc j hj hw
  have hD : loopDelta tpl2 false o2 0 ((process_csv (some headers) rows tpl false o1).rows) =
      ⟨(process_csv (some headers) rows tpl false o1).rows, false, 0, [], []⟩ :=
    loopDelta_all_filled tpl2 false o2 _ 0 hall
  refine ⟨?_, ?_, ?_, ?_, ?_⟩
  · rw [process_csv_calls headers _ tpl2 false o2 hh, hD]
  · rw [process_csv_rows headers _ tpl2 false o2 hh,
      ← loopDelta_rows tpl2 false o2 _ 0, hD]
  · rw [process_csv_errlog headers _ tpl2 false o2 hh, hD]
  · rw [process_csv_updated headers _ tpl2 false o2 hh, hD]
  · rw [process_csv_persist headers _ tpl2 false o2 hh, hD]
    simp

/-- Witness for C6 (amended): the blank row receives the non-blank text
`S`; the second run is a no-op. -/
theorem claim_C6_witness :
    (process_csv (some wHeaders)
        ((process_csv (some wHeaders) [wRow] "T" false gOracle).rows)
        "T" false gOracle).calls = 0 ∧
    (process_csv (some wHeaders)
        ((process_csv (some wHeaders) [wRow] "T" false gOracle).rows)
        "T" false gOracle).persist = Persist.noWrite := by
  have h := claim_C6_amended wHeaders [wRow] "T" "T" gOracle gOracle (by decide)
    (fun i hi hw => ⟨"S", rfl, by decide⟩)
  exact ⟨h.1, h.2.2.2.2⟩

/-- Counterexample to C7 as stated: the header check does not test for
`id`.  A dataset whose header lacks `id` (but has `article` and `summary`)
is not rejected: the run exits normally and even writes the file. -/
theorem claim_C7_cex :
    (process_csv (some c7Headers) [c7Row] "T" true wOracle).exitCode = none ∧
    (process_csv (some c7Headers) [c7Row] "T" true wOracle).persist ≠ Persist.noWrite := by
  exact ⟨by decide, by decide⟩

/-- C7 amended: the processor terminates with exit status 1 — before
touching any row, with no call, no error-log record and no file write —
exactly when the header is absent or lacks `article` or `summary`; the
field `id` of the claim is not part of the check. -/
theorem claim_C7_amended (headers? : Option (List String)) (rows : List Row) (tpl : String)
    (dry : Bool) (o : ℕ → ℕ → Except String String)
    (h : headers? = none ∨ ∃ headers, headers? = some headers ∧
      (headers.contains "article" = false ∨ headers.contains "summary" = false)) :
    (process_csv headers? rows tpl dry o).exitCode = some 1 ∧
    (process_csv headers? rows tpl dry o).persist = Persist.noWrite ∧
    (process_csv headers? rows tpl dry o).calls = 0 ∧
    (process_csv headers? rows tpl dry o).errlog = [] ∧
    (process_csv headers? rows tpl dry o).rows = rows := by
  rcases h with h | ⟨headers, rfl, hor⟩
  · subst h
    exact ⟨rfl, rfl, rfl, rfl, rfl⟩
  · have hfalse : (headers.contains "article" && headers.contains "summary") = false := by
      rcases hor with h1 | h1
      · rw [h1, Bool.false_and]
      · rw [h1, Bool.and_false]
    rw [process_csv_invalid headers rows tpl dry o hfalse]
    exact ⟨rfl, rfl, rfl, rfl, rfl⟩

/-- Witness for C7 (amended): a header lacking `summary` aborts with exit
status 1 and no write. -/
theorem claim_C7_witness :
    (process_csv (some ["id", "article"]) [wRow] "T" true wOracle).exitCode = some 1 ∧
    (process_csv (some ["id", "article"]) [wRow] "T" true wOracle).persist = Persist.noWrite ∧
    (process_csv (some ["id", "article"]) [wRow] "T" true wOracle).calls = 0 ∧
    (process_csv (some ["id", "article"]) [wRow] "T" true wOracle).errlog = [] ∧
    (process_csv (some ["id", "article"]) [wRow] "T" true wOracle).rows = [wRow] :=
  claim_C7_amended (some ["id", "article"]) [wRow] "T" true wOracle
    (Or.inr ⟨["id", "article"], rfl, Or.inr (by decide)⟩)

/-- C8: the processed dataset has exactly as many rows as were loaded, in
the same order; every field other than `summary` of every row is preserved
verbatim; and when the file is written, its header is exactly the loaded
header (same field set, order and positions) and its lines are the
processed rows projected onto that header, in order. -/
theorem claim_C8 (headers : List String) (rows : List Row) (tpl : String)
    (dry : Bool) (o : ℕ → ℕ → Except String String)
    (hh : (headers.contains "article" && headers.contains "summary") = true) :
    (process_csv (some headers) rows tpl dry o).rows.length = rows.length ∧
    (∀ (i : ℕ) (k : String), ¬ k = "summary" →
      Option.map (fun r => rowGet r k) ((process_csv (some headers) rows tpl dry o).rows[i]?) =
      Option.map (fun r => rowGet r k) (rows[i]?)) ∧
    (∀ H R, writtenFile ((process_csv (some headers) rows tpl dry o).persist) = some (H, R) →
      H = headers ∧
      R = ((process_csv (some headers) rows tpl dry o).rows).map (writeRowCsv headers)) := by
  refine ⟨?_, ?_, ?_⟩
  · rw [process_csv_rows headers rows tpl dry o hh]
    exact newRows_length dry o rows 0
  · intro i k hk
    rw [process_csv_rows headers rows tpl dry o hh, newRows_getElem dry o rows 0 i]
    cases hget : rows[i]? with
    | none => simp
    | some row =>
        simp only [Option.map_some']
        rw [newRow_rowGet_ne dry o (0 + i) row k hk]
  · intro H R hw
    rw [process_csv_persist headers rows tpl dry o hh] at hw
    cases hu : (loopDelta tpl dry o 0 rows).updated with
    | false =>
        rw [hu] at hw
        simp [writtenFile] at hw
    | true =>
        rw [hu] at hw
        simp only [if_true, writtenFile, Option.some.injEq, Prod.mk.injEq] at hw
        refine ⟨hw.1.symm, ?_⟩
        rw [process_csv_rows headers rows tpl dry o hh]
        exact hw.2.symm

/-- Witness for C8: the `id` field of the only row is untouched by a dry
run. -/
theorem claim_C8_witness :
    Option.map (fun r => rowGet r "id")
      ((process_csv (some wHeaders) [wRow] "T" true wOracle).rows[0]?) =
    Option.map (fun r => rowGet r "id") (([wRow] : List Row)[0]?) := by
  have h := claim_C8 wHeaders [wRow] "T" true wOracle (by decide)
  exact h.2.1 0 "id" (by decide)
